import Mathlib

/-!
# Verification of the starttls-backend checking engine

A shallow embedding of the Go sources of `starttls-backend` (the STARTTLS /
MTA-STS checking engine), together with proofs of the specification's claims
about it.

Conventions of the embedding:
* Go `time.Time` / `time.Duration` values become `Int` (nanoseconds); the
  subtraction `now.Sub(t)` becomes integer subtraction.
* Go functions returning `(T, error)` become `Option T` where only the
  presence/absence of the error matters at the contract level, or a pair
  with an explicit `Option String` error component where the error value
  itself is part of the claim.
* Go maps become association lists where a `put` prepends, so the most
  recent binding for a key wins on lookup, matching map-overwrite semantics.
* The current time is threaded explicitly (`now : Int`) instead of calling
  a clock.
-/

namespace StarttlsBackend

/-- From `checker` (spec §3): the result of probing one mail-exchange
hostname. `Status` is the severity tier (0 = success, 1 = warning,
2 = failure), `Timestamp` the probe time in nanoseconds. -/
structure HostnameResult where
  Hostname : String
  Status : Nat
  Message : String
  Timestamp : Int
  deriving DecidableEq, Repr

/-- From `checker` (spec §3): a fetched MTA-STS policy. `Mode` is the
policy mode string (`"enforce"`, `"testing"`, `"none"`). -/
structure MTASTSResult where
  Mode : String
  MXs : List String
  deriving DecidableEq, Repr

/-- From `checker` (spec §3): the aggregate result of checking one domain.
`HostnameResults` embeds the Go `map[string]HostnameResult` as an
association list; `MTASTSResult` is the Go nil-able pointer as an
`Option`; `Status` is the overall severity (an `int` in Go, 0 = success). -/
structure DomainResult where
  Domain : String
  HostnameResults : List (String × HostnameResult)
  MTASTSResult : Option MTASTSResult
  Status : Nat
  deriving DecidableEq, Repr

/-! ## ScanCache and SimpleStore (`checker/cache.go`) -/

/-- `SimpleStore` from `checker/cache.go`: "simple HostnameResult storage
backed by map". The Go `map[string]HostnameResult` is embedded as an
association list where the most recent `put` is at the head. -/
def SimpleStore := List (String × HostnameResult)

/-- `SimpleStore.GetHostnameScan` from `checker/cache.go`: "wraps a map get.
Returns error if not present in map." `none` is the not-found error. -/
def SimpleStore.GetHostnameScan (s : SimpleStore) (hostname : String) :
    Option HostnameResult :=
  (List.find? (fun p => p.1 = hostname) s).map Prod.snd

/-- `SimpleStore.PutHostnameScan` from `checker/cache.go`: "wraps a map set.
Can never return error." Returns the updated store together with the Go
`error` value, embedded as `Option String` (`none` = nil error). -/
def SimpleStore.PutHostnameScan (s : SimpleStore) (hostname : String)
    (result : HostnameResult) : SimpleStore × Option String :=
  ((hostname, result) :: s, none)

/-- `ScanCache` from `checker/cache.go`: wraps a scan storage object and an
expiry window. The embedded `ScanStore` interface is the `get` side of the
backing store, a function from hostname to `Option HostnameResult`
(`none` = the store returned an error). `ExpireTime` is a duration in
nanoseconds. -/
structure ScanCache where
  store : String → Option HostnameResult
  ExpireTime : Int

/-- `ScanCache.GetHostnameScan` from `checker/cache.go`: retrieves the scan
from underlying storage; if the store errors, that error propagates; if the
scan's age `now - result.Timestamp` exceeds `ExpireTime`, an "expired"
error is returned (embedded as `none`); otherwise the scan is a hit. -/
def ScanCache.GetHostnameScan (c : ScanCache) (now : Int) (hostname : String) :
    Option HostnameResult :=
  match c.store hostname with
  | none => none
  | some result =>
    if now - result.Timestamp > c.ExpireTime then none else some result

/-- `ScanCache.PutHostnameScan` from `checker/cache.go`, for a cache backed
by a `SimpleStore`: "puts in a scan", forwarding to the store unmodified. -/
def ScanCache.PutHostnameScanSimple (s : SimpleStore) (hostname : String)
    (result : HostnameResult) : SimpleStore × Option String :=
  s.PutHostnameScan hostname result

/-- The `get` view of a `SimpleStore`, as plugged into `ScanCache.store`
by `MakeSimpleCache` in `checker/cache.go`. -/
def SimpleStore.asStore (s : SimpleStore) : String → Option HostnameResult :=
  fun hostname => s.GetHostnameScan hostname

/-- `MakeSimpleCache` from `checker/cache.go`: a cache with an empty
`SimpleStore` backing it. -/
def MakeSimpleCache (expiryTime : Int) : ScanCache :=
  { store := SimpleStore.asStore [], ExpireTime := expiryTime }

/-- C1: `ScanCache.GetHostnameScan` returns a hit (no error) if and only if
the backing store holds a result for the hostname whose age
`now - result.Timestamp` is at most `ExpireTime`; an expired stored result
is reported as an error, like a true miss. -/
theorem scanCache_get_hit_iff_fresh (c : ScanCache) (now : Int)
    (hostname : String) (r : HostnameResult) :
    c.GetHostnameScan now hostname = some r ↔
      (c.store hostname = some r ∧ now - r.Timestamp ≤ c.ExpireTime) := by
  unfold ScanCache.GetHostnameScan
  cases h : c.store hostname with
  | none => simp
  | some result =>
    dsimp only
    constructor
    · intro hc
      by_cases hexp : now - result.Timestamp > c.ExpireTime
      · rw [if_pos hexp] at hc
        exact absurd hc (by simp)
      · rw [if_neg hexp] at hc
        injection hc with hc
        subst hc
        exact ⟨rfl, by omega⟩
    · rintro ⟨hr, hage⟩
      injection hr with hr
      subst hr
      rw [if_neg (by omega)]

/-- C8: on a `SimpleStore`-backed cache, `PutHostnameScan` returns a nil
error, and an immediately following `GetHostnameScan` for the same hostname
within the expiry window returns exactly the result that was put. -/
theorem simpleStore_put_then_get (s : SimpleStore) (hostname : String)
    (r : HostnameResult) (expire now : Int)
    (hfresh : now - r.Timestamp ≤ expire) :
    (s.PutHostnameScan hostname r).2 = none ∧
      ScanCache.GetHostnameScan
        { store := (s.PutHostnameScan hostname r).1.asStore,
          ExpireTime := expire } now hostname = some r := by
  constructor
  · rfl
  · simp only [ScanCache.GetHostnameScan, SimpleStore.asStore,
      SimpleStore.GetHostnameScan, SimpleStore.PutHostnameScan,
      List.find?_cons_of_pos, decide_eq_true_eq, Option.map_some']
    rw [if_neg (by omega)]

/-- Witness for C8 at a concrete store, hostname, result and times. -/
theorem simpleStore_put_then_get_witness :
    (SimpleStore.PutHostnameScan [] "mx.example.com"
        ⟨"mx.example.com", 0, "", 100⟩).2 = none ∧
      ScanCache.GetHostnameScan
        { store := (SimpleStore.PutHostnameScan [] "mx.example.com"
            ⟨"mx.example.com", 0, "", 100⟩).1.asStore,
          ExpireTime := 50 } 120 "mx.example.com" =
        some ⟨"mx.example.com", 0, "", 100⟩ :=
  simpleStore_put_then_get [] "mx.example.com" ⟨"mx.example.com", 0, "", 100⟩
    50 120 (by norm_num)

/-! ## Checker (`checker/checker.go`) -/

/-- `Checker` from `checker/checker.go`. `Timeout` is a `time.Duration`
(nanoseconds, zero value = unset); `Cache` the optional scan cache; the
three override fields are the nil-able test seams for DNS lookup, hostname
checking and MTA-STS checking (`net.MX` records embedded as hostname
strings). -/
structure Checker where
  Timeout : Int
  Cache : Option ScanCache
  lookupMXOverride : Option (String → Option (List String))
  checkHostnameOverride : Option (String → String → HostnameResult)
  checkMTASTSOverride :
    Option (String → List (String × HostnameResult) → Option MTASTSResult)

/-- `Checker.timeout` from `checker/checker.go`: the configured `Timeout`
when nonzero, otherwise 10 seconds. -/
def Checker.timeout (c : Checker) : Int :=
  if c.Timeout ≠ 0 then c.Timeout else 10 * 1000000000

/-- C7: the timeout applied to network requests equals the configured
`Timeout` field when that field is set (nonzero), and defaults to
10 seconds when it is unset (the zero value). -/
theorem checker_timeout_default (c : Checker) :
    (c.Timeout ≠ 0 → c.timeout = c.Timeout) ∧
      (c.Timeout = 0 → c.timeout = 10 * 1000000000) := by
  constructor
  · intro h
    simp [Checker.timeout, h]
  · intro h
    simp [Checker.timeout, h]

/-- Witness for C7: a checker with `Timeout` unset uses 10 seconds, one
with `Timeout` set to 5 seconds uses 5 seconds. -/
theorem checker_timeout_default_witness :
    Checker.timeout ⟨0, none, none, none, none⟩ = 10 * 1000000000 ∧
      Checker.timeout ⟨5000000000, none, none, none, none⟩ = 5000000000 :=
  ⟨(checker_timeout_default ⟨0, none, none, none, none⟩).2 rfl,
    (checker_timeout_default ⟨5000000000, none, none, none, none⟩).1
      (by decide)⟩

/-! ## Batch pipeline configuration (`checker/totals.go`) -/

/-- `defaultPoolSize` from `checker/totals.go`. -/
def defaultPoolSize : Int := 16

/-- Go's `strconv.Atoi`, as called by `CheckCSV` on the
`CONNECTION_POOL_SIZE` environment value: optional sign, then one or more
decimal digits, rejecting the empty string, stray characters, and values
outside the 64-bit integer range (Go returns `ErrRange` there, and any
non-nil error sends `CheckCSV` to the default). `none` is a non-nil
error. -/
def strconvAtoi (s : String) : Option Int :=
  let (neg, digits) :=
    match s.data with
    | '+' :: rest => (false, rest)
    | '-' :: rest => (true, rest)
    | l => (false, l)
  if digits = [] then none
  else if digits.all Char.isDigit then
    let n : Nat := digits.foldl (fun acc c => acc * 10 + (c.toNat - 48)) 0
    if neg then
      if n ≤ 2 ^ 63 then some (-(n : Int)) else none
    else
      if n ≤ 2 ^ 63 - 1 then some (n : Int) else none
  else none

/-- The pool-size computation at the top of `CheckCSV` in
`checker/totals.go`: `strconv.Atoi` on the environment value, falling back
to `defaultPoolSize` when the parse errors or the value is non-positive. -/
def checkCSVPoolSize (env : String) : Int :=
  match strconvAtoi env with
  | none => defaultPoolSize
  | some poolSize => if poolSize ≤ 0 then defaultPoolSize else poolSize

/-- C6: the worker-pool size falls back to the default 16 whenever the
configuration value fails to parse (unset meaning the empty string, or
non-numeric) or parses to a non-positive number, and a valid positive
value is used as given. -/
theorem checkCSV_pool_size_fallback (env : String) :
    (strconvAtoi env = none → checkCSVPoolSize env = 16) ∧
      (∀ v : Int, strconvAtoi env = some v → v ≤ 0 →
        checkCSVPoolSize env = 16) ∧
      (∀ v : Int, strconvAtoi env = some v → 0 < v →
        checkCSVPoolSize env = v) := by
  refine ⟨fun h => ?_, fun v h hv => ?_, fun v h hv => ?_⟩
  · simp [checkCSVPoolSize, h, defaultPoolSize]
  · simp [checkCSVPoolSize, h, hv, defaultPoolSize]
  · simp [checkCSVPoolSize, h, defaultPoolSize]
    omega

/-- Witness for C6: the empty (unset) value, a non-numeric value, zero, a
negative value all give 16; a valid positive value is used as given. -/
theorem checkCSV_pool_size_fallback_witness :
    checkCSVPoolSize "" = 16 ∧ checkCSVPoolSize "abc" = 16 ∧
      checkCSVPoolSize "0" = 16 ∧ checkCSVPoolSize "-3" = 16 ∧
      checkCSVPoolSize "7" = 7 :=
  ⟨(checkCSV_pool_size_fallback "").1 (by decide),
    (checkCSV_pool_size_fallback "abc").1 (by decide),
    (checkCSV_pool_size_fallback "0").2.1 0 (by decide) (by decide),
    (checkCSV_pool_size_fallback "-3").2.1 (-3) (by decide) (by decide),
    (checkCSV_pool_size_fallback "7").2.2 7 (by decide) (by decide)⟩

/-! ## The CheckCSV input-reading loop (`checker/totals.go`) -/

/-- How the input stream terminates after its data rows: Go's `csv.Reader`
eventually returns either `io.EOF` or some other read error. -/
inductive ReadTermination where
  | eof
  | readError
  deriving DecidableEq, Repr

/-- The work items the producer goroutine of `CheckCSV` extracts from the
data rows: for each non-empty row, the entry at `domainColumn`
(out-of-range access does not occur on well-formed CSV rows; it is
embedded as the empty-string default). -/
def csvWorkItems (rows : List (List String)) (domainColumn : Nat) :
    List String :=
  rows.filterMap fun data =>
    if 0 < data.length then some (data.getD domainColumn "") else none

/-- The input-reading loop of `CheckCSV` in `checker/totals.go`: reads rows
one at a time, enqueuing `data[domainColumn]` for each non-empty row; on
`io.EOF` it breaks and closes the work queue (`some` of the enqueued
items); on any other read error it calls `log.Fatal`, aborting the whole
pipeline (`none`). -/
def checkCSVReadLoop (rows : List (List String)) (term : ReadTermination)
    (domainColumn : Nat) : Option (List String) :=
  match rows with
  | [] =>
    match term with
    | .eof => some []
    | .readError => none
  | data :: rest =>
    match checkCSVReadLoop rest term domainColumn with
    | none => none
    | some work =>
      some (if 0 < data.length then data.getD domainColumn "" :: work
            else work)

/-- C4: reaching end-of-input terminates reading cleanly with every row's
domain enqueued, while any other read error aborts the entire batch rather
than skipping the offending row. -/
theorem checkCSV_read_loop_eof_or_fatal (rows : List (List String))
    (domainColumn : Nat) :
    checkCSVReadLoop rows ReadTermination.eof domainColumn =
        some (csvWorkItems rows domainColumn) ∧
      checkCSVReadLoop rows ReadTermination.readError domainColumn = none := by
  constructor
  · induction rows with
    | nil => rfl
    | cons data rest ih =>
      simp only [checkCSVReadLoop, ih, csvWorkItems, List.filterMap_cons]
      by_cases h : 0 < data.length
      · simp [h, csvWorkItems]
      · simp [h, csvWorkItems]
  · induction rows with
    | nil => rfl
    | cons data rest ih =>
      simp only [checkCSVReadLoop, ih]

/-! ## DomainTotals (`checker/totals.go`) -/

/-- `DomainTotals` from `checker/totals.go`: aggregated stats across
domains; implements `ResultHandler`. -/
structure DomainTotals where
  Time : Int
  Source : String
  Attempted : Nat
  WithMXs : Nat
  MTASTSTesting : List String
  MTASTSEnforce : List String
  deriving DecidableEq, Repr

/-- `DomainTotals.HandleDomain` from `checker/totals.go`: adds the result
of a single domain scan to the aggregated stats (the progress-logging
every 1000 domains has no effect on the stats and is omitted). -/
def DomainTotals.HandleDomain (t : DomainTotals) (r : DomainResult) :
    DomainTotals :=
  let t := { t with Attempted := t.Attempted + 1 }
  if r.HostnameResults.length = 0 then t
  else
    let t := { t with WithMXs := t.WithMXs + 1 }
    match r.MTASTSResult with
    | none => t
    | some m =>
      if m.Mode = "enforce" then
        { t with MTASTSEnforce := t.MTASTSEnforce ++ [r.Domain] }
      else if m.Mode = "testing" then
        { t with MTASTSTesting := t.MTASTSTesting ++ [r.Domain] }
      else t

/-- Folding `HandleDomain` over a sequence of domain results. -/
def DomainTotals.handleAll (t : DomainTotals) (rs : List DomainResult) :
    DomainTotals :=
  rs.foldl DomainTotals.HandleDomain t

/-- The zero value of `DomainTotals`. -/
def DomainTotals.zero : DomainTotals := ⟨0, "", 0, 0, [], []⟩

/-- The condition under which `HandleDomain` counts a result in `WithMXs`:
a non-empty `HostnameResults` map. -/
def DomainResult.hasMXs (r : DomainResult) : Bool :=
  r.HostnameResults.length ≠ 0

/-- The condition under which `HandleDomain` appends the domain to
`MTASTSEnforce`. -/
def DomainResult.countsEnforce (r : DomainResult) : Bool :=
  r.HostnameResults.length ≠ 0 &&
    match r.MTASTSResult with
    | some m => m.Mode == "enforce"
    | none => false

/-- The condition under which `HandleDomain` appends the domain to
`MTASTSTesting`. -/
def DomainResult.countsTesting (r : DomainResult) : Bool :=
  r.HostnameResults.length ≠ 0 &&
    match r.MTASTSResult with
    | some m => m.Mode == "testing"
    | none => false

/-- One `HandleDomain` step, described field by field. -/
theorem handleDomain_step (t : DomainTotals) (r : DomainResult) :
    (t.HandleDomain r).Time = t.Time ∧
      (t.HandleDomain r).Source = t.Source ∧
      (t.HandleDomain r).Attempted = t.Attempted + 1 ∧
      (t.HandleDomain r).WithMXs =
        t.WithMXs + (if r.hasMXs then 1 else 0) ∧
      (t.HandleDomain r).MTASTSEnforce =
        t.MTASTSEnforce ++ (if r.countsEnforce then [r.Domain] else []) ∧
      (t.HandleDomain r).MTASTSTesting =
        t.MTASTSTesting ++ (if r.countsTesting then [r.Domain] else []) := by
  unfold DomainTotals.HandleDomain DomainResult.hasMXs
    DomainResult.countsEnforce DomainResult.countsTesting
  by_cases hmx : r.HostnameResults.length = 0
  · simp [hmx]
  · cases hres : r.MTASTSResult with
    | none => simp [hmx, hres]
    | some m =>
      by_cases henf : m.Mode = "enforce"
      · simp [hmx, hres, henf]
      · by_cases htst : m.Mode = "testing"
        · simp [hmx, hres, henf, htst]
        · simp [hmx, hres, henf, htst]

/-- `handleAll` from an arbitrary starting state, described field by
field. -/
theorem handleAll_spec (rs : List DomainResult) (t : DomainTotals) :
    (t.handleAll rs).Attempted = t.Attempted + rs.length ∧
      (t.handleAll rs).WithMXs =
        t.WithMXs + rs.countP (fun r => r.hasMXs) ∧
      (t.handleAll rs).MTASTSEnforce =
        t.MTASTSEnforce ++
          (rs.filter (fun r => r.countsEnforce)).map DomainResult.Domain ∧
      (t.handleAll rs).MTASTSTesting =
        t.MTASTSTesting ++
          (rs.filter (fun r => r.countsTesting)).map DomainResult.Domain := by
  induction rs generalizing t with
  | nil => simp [DomainTotals.handleAll]
  | cons r rest ih =>
    have hstep := handleDomain_step t r
    have hrest := ih (t.HandleDomain r)
    have hfold : t.handleAll (r :: rest) =
        (t.HandleDomain r).handleAll rest := rfl
    rw [hfold]
    obtain ⟨-, -, ha, hw, he, hts⟩ := hstep
    obtain ⟨ha', hw', he', hts'⟩ := hrest
    refine ⟨?_, ?_, ?_, ?_⟩
    · rw [ha', ha, List.length_cons]
      omega
    · rw [hw', hw, List.countP_cons]
      by_cases h : r.hasMXs
      · simp only [h, if_true]
        omega
      · simp only [h, if_false]
        omega
    · rw [he', he, List.filter_cons]
      by_cases h : r.countsEnforce <;> simp [h]
    · rw [hts', hts, List.filter_cons]
      by_cases h : r.countsTesting <;> simp [h]

/-- Each result contributes at most one list append, and only when it has
MX records. -/
theorem enforce_testing_le_mxs (r : DomainResult) :
    (if r.countsEnforce then 1 else 0) + (if r.countsTesting then 1 else 0)
      ≤ (if r.hasMXs then (1 : Nat) else 0) := by
  unfold DomainResult.countsEnforce DomainResult.countsTesting
    DomainResult.hasMXs
  by_cases hmx : r.HostnameResults.length = 0
  · simp [hmx]
  · cases hres : r.MTASTSResult with
    | none => simp [hmx, hres]
    | some m =>
      by_cases henf : m.Mode = "enforce"
      · have : ¬(m.Mode = "testing") := by rw [henf]; decide
        simp [hmx, hres, henf, this]
      · by_cases htst : m.Mode = "testing"
        · simp [hmx, hres, henf, htst]
        · simp [hmx, hres, henf, htst]

/-- Summed over a result list, the enforce- and testing-list contributions
never exceed the `WithMXs` contributions. -/
theorem countP_enforce_testing_le (rs : List DomainResult) :
    rs.countP (fun r => r.countsEnforce) +
        rs.countP (fun r => r.countsTesting) ≤
      rs.countP (fun r => r.hasMXs) := by
  induction rs with
  | nil => simp
  | cons r rest ih =>
    simp only [List.countP_cons]
    have := enforce_testing_le_mxs r
    by_cases h1 : r.countsEnforce <;> by_cases h2 : r.countsTesting <;>
      by_cases h3 : r.hasMXs <;> simp [h1, h2, h3] at this ⊢ <;> omega

/-- C9: starting from the zero `DomainTotals`, after any sequence of
`HandleDomain` calls: `Attempted` is the number of calls; `WithMXs` counts
the results with a non-empty `HostnameResults` map, so
`WithMXs ≤ Attempted`; a domain is appended to `MTASTSEnforce`
(resp. `MTASTSTesting`) exactly when its result has non-empty
`HostnameResults` and an MTA-STS result in mode `"enforce"`
(resp. `"testing"`), so the two lists together never exceed `WithMXs`. -/
theorem domainTotals_invariants (rs : List DomainResult) :
    (DomainTotals.zero.handleAll rs).Attempted = rs.length ∧
      (DomainTotals.zero.handleAll rs).WithMXs =
        rs.countP (fun r => r.hasMXs) ∧
      (DomainTotals.zero.handleAll rs).WithMXs ≤
        (DomainTotals.zero.handleAll rs).Attempted ∧
      (DomainTotals.zero.handleAll rs).MTASTSEnforce =
        (rs.filter (fun r => r.countsEnforce)).map DomainResult.Domain ∧
      (DomainTotals.zero.handleAll rs).MTASTSTesting =
        (rs.filter (fun r => r.countsTesting)).map DomainResult.Domain ∧
      (DomainTotals.zero.handleAll rs).MTASTSEnforce.length +
          (DomainTotals.zero.handleAll rs).MTASTSTesting.length ≤
        (DomainTotals.zero.handleAll rs).WithMXs := by
  obtain ⟨ha, hw, he, hts⟩ := handleAll_spec rs DomainTotals.zero
  refine ⟨?_, ?_, ?_, ?_, ?_, ?_⟩
  · rw [ha]
    simp [DomainTotals.zero]
  · rw [hw]
    simp [DomainTotals.zero]
  · rw [hw, ha]
    have := List.countP_le_length (fun r => DomainResult.hasMXs r) (l := rs)
    simp only [DomainTotals.zero]
    omega
  · rw [he]
    simp [DomainTotals.zero]
  · rw [hts]
    simp [DomainTotals.zero]
  · rw [he, hts, hw]
    simp only [DomainTotals.zero, List.nil_append, List.length_map,
      ← List.countP_eq_length_filter, Nat.zero_add]
    exact countP_enforce_testing_le rs

/-! ## Policy-list membership check (`models/domain.go`) -/

/-- Modelled from the spec: the generic check outcome `checker.Result`
(spec §3), whose own source file is not among the provided sources —
{name/check-identifier, severity ∈ {success = 0, warning = 1,
failure = 2}, human message}, with builder-style construction fixing
severity and message atomically. -/
structure Result where
  Name : String
  Status : Nat
  Message : String
  deriving DecidableEq, Repr

/-- Modelled from the spec: the success builder sets the success tier. -/
def Result.Success (r : Result) : Result :=
  { r with Status := 0 }

/-- Modelled from the spec: the warning builder sets the warning tier and
the message (Go formats the message from a format string and arguments;
the embedding takes it pre-formatted). -/
def Result.Warning (r : Result) (message : String) : Result :=
  { r with Status := 1, Message := message }

/-- Modelled from the spec: the failure builder sets the failure tier and
the message. -/
def Result.Failure (r : Result) (message : String) : Result :=
  { r with Status := 2, Message := message }

/-- Modelled from the spec: `checker.PolicyList`, the check-identifier the
policy-list check stamps on its `Result`. -/
def PolicyList : String := "policylist"

/-- `DomainState` and its constants from `models/domain.go`. -/
def DomainState := String
deriving instance DecidableEq for DomainState

/-- `StateUnknown` from `models/domain.go`: never submitted. -/
def StateUnknown : DomainState := "unknown"

/-- `StateUnconfirmed` from `models/domain.go`: submitted, email
validation pending. -/
def StateUnconfirmed : DomainState := "unvalidated"

/-- `StateTesting` from `models/domain.go`: queued for addition. -/
def StateTesting : DomainState := "queued"

/-- `StateFailed` from `models/domain.go`: failed verification. -/
def StateFailed : DomainState := "failed"

/-- `StateEnforce` from `models/domain.go`: on the list. -/
def StateEnforce : DomainState := "added"

/-- `Domain` from `models/domain.go`: the preload state of a single
domain (`LastUpdated`/`TestingStart` as nanosecond instants). -/
structure Domain where
  Name : String
  Email : String
  MXs : List String
  MTASTSMode : String
  State : DomainState
  LastUpdated : Int
  TestingStart : Int
  QueueWeeks : Nat

/-- The `DomainStore.GetDomain` capability consumed by
`Domain.PolicyListCheck`, embedded as a function from name and state to
`Option Domain` (`none` = the store returned an error, i.e. no such
domain in that state). -/
def GetDomainFun := String → DomainState → Option Domain

/-- The `policyList.HasDomain` capability from `models/domain.go`. -/
def HasDomainFun := String → Bool

/-- `Domain.PolicyListCheck` from `models/domain.go`: checks the policy
list status of this particular domain, in fixed precedence order — on the
policy list, enforce state in the store, testing (queued) state,
unconfirmed (email-validation pending) state, otherwise not on the
list. -/
def Domain.PolicyListCheck (d : Domain) (store : GetDomainFun)
    (list : HasDomainFun) : Result :=
  let result : Result := { Name := PolicyList, Status := 0, Message := "" }
  if list d.Name then result.Success
  else if (store d.Name StateEnforce).isSome then result.Success
  else if (store d.Name StateTesting).isSome then
    result.Warning
      ("Domain " ++ d.Name ++ " is queued to be added to the policy list.")
  else if (store d.Name StateUnconfirmed).isSome then
    result.Failure
      ("The policy addition request for " ++ d.Name ++
        " is waiting on email validation")
  else
    result.Failure ("Domain " ++ d.Name ++ " is not on the policy list.")

/-- C10: `PolicyListCheck` always returns a `Result`, determined by a
fixed precedence order — Success if the policy list has the domain; else
Success if the store holds it in the enforce ("added") state; else
Warning if queued ("queued"); else Failure about pending email validation
if unconfirmed ("unvalidated"); else Failure (not on the policy list). -/
theorem domain_policyListCheck_precedence (d : Domain) (store : GetDomainFun)
    (list : HasDomainFun) :
    (list d.Name = true →
      d.PolicyListCheck store list = ⟨PolicyList, 0, ""⟩) ∧
    (list d.Name = false → (store d.Name StateEnforce).isSome →
      d.PolicyListCheck store list = ⟨PolicyList, 0, ""⟩) ∧
    (list d.Name = false → store d.Name StateEnforce = none →
      (store d.Name StateTesting).isSome →
      d.PolicyListCheck store list = ⟨PolicyList, 1,
        "Domain " ++ d.Name ++ " is queued to be added to the policy list."⟩) ∧
    (list d.Name = false → store d.Name StateEnforce = none →
      store d.Name StateTesting = none →
      (store d.Name StateUnconfirmed).isSome →
      d.PolicyListCheck store list = ⟨PolicyList, 2,
        "The policy addition request for " ++ d.Name ++
          " is waiting on email validation"⟩) ∧
    (list d.Name = false → store d.Name StateEnforce = none →
      store d.Name StateTesting = none →
      store d.Name StateUnconfirmed = none →
      d.PolicyListCheck store list = ⟨PolicyList, 2,
        "Domain " ++ d.Name ++ " is not on the policy list."⟩) := by
  refine ⟨fun h1 => ?_, fun h1 h2 => ?_, fun h1 h2 h3 => ?_,
    fun h1 h2 h3 h4 => ?_, fun h1 h2 h3 h4 => ?_⟩
  · simp [Domain.PolicyListCheck, Result.Success, h1]
  · simp [Domain.PolicyListCheck, Result.Success, h1, h2]
  · simp [Domain.PolicyListCheck, Result.Success, Result.Warning, h1, h2, h3]
  · simp [Domain.PolicyListCheck, Result.Success, Result.Warning,
      Result.Failure, h1, h2, h3, h4]
  · simp [Domain.PolicyListCheck, Result.Success, Result.Warning,
      Result.Failure, h1, h2, h3, h4]

/-- Witness for C10: a domain on neither the policy list nor in any store
state gets the not-on-the-policy-list failure. -/
theorem domain_policyListCheck_precedence_witness :
    Domain.PolicyListCheck
        ⟨"example.com", "", [], "", StateUnknown, 0, 0, 0⟩
        (fun _ _ => none) (fun _ => false) =
      ⟨PolicyList, 2, "Domain example.com is not on the policy list."⟩ :=
  (domain_policyListCheck_precedence
      ⟨"example.com", "", [], "", StateUnknown, 0, 0, 0⟩
      (fun _ _ => none) (fun _ => false)).2.2.2.2 rfl rfl rfl rfl

/-! ## DomainResult composition (spec §4.3 step 5) -/

/-- Modelled from the spec: the severity tiers of spec §3
(success < warning < failure), with the failure tier used for an MTA-STS
cross-validation inconsistency; the `checker` source composing the
`DomainResult` is not among the provided sources. -/
def statusFailure : Nat := 2

/-- The most severe status in a list of statuses (success = 0 being least
severe). -/
def worstStatus (statuses : List Nat) : Nat :=
  statuses.foldr max 0

/-- Modelled from the spec: step (5) of the domain check (spec §4.3) —
"Compose the DomainResult; overall status takes the most severe of: any
hostname failure, any cross-validation inconsistency from MTA-STS,
otherwise success." The composing `checker` code is not among the
provided sources. `inconsistent` is the MTA-STS cross-validation verdict
from spec §4.2 step 3. -/
def composeDomainResult (domain : String)
    (hostnameResults : List (String × HostnameResult))
    (mtasts : Option MTASTSResult) (inconsistent : Bool) : DomainResult :=
  { Domain := domain
    HostnameResults := hostnameResults
    MTASTSResult := mtasts
    Status := max (worstStatus (hostnameResults.map fun p => p.2.Status))
      (if inconsistent then statusFailure else 0) }

/-- Every member of a status list is bounded by the worst status. -/
theorem le_worstStatus {statuses : List Nat} {s : Nat}
    (h : s ∈ statuses) : s ≤ worstStatus statuses := by
  induction statuses with
  | nil => cases h
  | cons a rest ih =>
    rcases List.mem_cons.mp h with rfl | hmem
    · exact Nat.le_max_left _ _
    · exact Nat.le_trans (ih hmem) (Nat.le_max_right _ _)

/-- The worst status of a list is bounded by any bound on its members. -/
theorem worstStatus_le {statuses : List Nat} {b : Nat}
    (h : ∀ s ∈ statuses, s ≤ b) : worstStatus statuses ≤ b := by
  induction statuses with
  | nil => exact Nat.zero_le b
  | cons a rest ih =>
    exact Nat.max_le.mpr ⟨h a (List.mem_cons_self a rest),
      ih fun s hs => h s (List.mem_cons_of_mem a hs)⟩

/-- C3: the overall status of a composed `DomainResult` is the most severe
verdict among its per-hostname results together with any MTA-STS
cross-validation inconsistency; in particular a failure-tier hostname
among statuses within the tier range forces overall failure (so one
success plus one failure gives failure), and all-success hostnames with
no inconsistency give overall success. -/
theorem composeDomainResult_severity (domain : String)
    (hostnameResults : List (String × HostnameResult))
    (mtasts : Option MTASTSResult) (inconsistent : Bool) :
    ((composeDomainResult domain hostnameResults mtasts
        inconsistent).Status =
      max (worstStatus (hostnameResults.map fun p => p.2.Status))
        (if inconsistent then statusFailure else 0)) ∧
    ((∀ p ∈ hostnameResults, p.2.Status ≤ statusFailure) →
      (∃ p ∈ hostnameResults, p.2.Status = statusFailure) →
      (composeDomainResult domain hostnameResults mtasts
        inconsistent).Status = statusFailure) ∧
    ((∀ p ∈ hostnameResults, p.2.Status = 0) → inconsistent = false →
      (composeDomainResult domain hostnameResults mtasts
        inconsistent).Status = 0) := by
  refine ⟨rfl, fun hb ⟨p, hp, hfail⟩ => ?_, fun hz hinc => ?_⟩
  · have hmem : statusFailure ∈ hostnameResults.map fun p => p.2.Status :=
      List.mem_map.mpr ⟨p, hp, hfail⟩
    have hlow : worstStatus (hostnameResults.map fun p => p.2.Status) ≤
        statusFailure := by
      refine worstStatus_le fun s hs => ?_
      obtain ⟨q, hq, rfl⟩ := List.mem_map.mp hs
      exact hb q hq
    have hhigh := le_worstStatus hmem
    have hworst : worstStatus (hostnameResults.map fun p => p.2.Status) =
        statusFailure := Nat.le_antisymm hlow hhigh
    unfold composeDomainResult
    simp only [hworst]
    cases inconsistent <;> simp [statusFailure]
  · have hworst : worstStatus (hostnameResults.map fun p => p.2.Status) = 0 := by
      refine Nat.le_antisymm (worstStatus_le fun s hs => ?_) (Nat.zero_le _)
      obtain ⟨q, hq, rfl⟩ := List.mem_map.mp hs
      exact Nat.le_of_eq (hz q hq)
    unfold composeDomainResult
    simp [hworst, hinc]

/-- Witness for C3: one success-tier plus one failure-tier hostname result
yields overall failure; two success-tier hostname results with no
inconsistency yield overall success. -/
theorem composeDomainResult_severity_witness :
    (composeDomainResult "example.com"
        [("mx1", ⟨"mx1", 0, "", 0⟩), ("mx2", ⟨"mx2", 2, "no STARTTLS", 0⟩)]
        none false).Status = statusFailure ∧
      (composeDomainResult "example.com"
        [("mx1", ⟨"mx1", 0, "", 0⟩), ("mx2", ⟨"mx2", 0, "", 0⟩)]
        none false).Status = 0 :=
  ⟨(composeDomainResult_severity "example.com"
      [("mx1", ⟨"mx1", 0, "", 0⟩), ("mx2", ⟨"mx2", 2, "no STARTTLS", 0⟩)]
      none false).2.1 (by decide)
      ⟨("mx2", ⟨"mx2", 2, "no STARTTLS", 0⟩), by decide⟩,
    (composeDomainResult_severity "example.com"
      [("mx1", ⟨"mx1", 0, "", 0⟩), ("mx2", ⟨"mx2", 0, "", 0⟩)]
      none false).2.2 (by decide) rfl⟩

/-! ## Validator (spec §4.6) -/

/-- Modelled from the spec: one tick of a `Validator` (spec §4.6), whose
implementation file is not among the provided sources (only its test is).
"On each tick of the interval: fetch the current domain set from the
store, and for every domain, fetch its expected hostnames and invoke the
check function" — the checks performed in one tick, in store order. -/
def validatorTickChecks (domains : List String)
    (hostnamesForDomain : String → List String)
    (check : String → List String → DomainResult) :
    List (String × DomainResult) :=
  domains.map fun domain => (domain, check domain (hostnamesForDomain domain))

/-- Modelled from the spec: the failure reports of one `Validator` tick
(spec §4.6) — "if the resulting verdict's status is not success, invoke
the failure reporter with (validator name, domain, verdict)". Success is
status 0 (`checker.DomainResult{Status: 0}` is the unreported case in the
validator test). -/
def validatorTickReports (name : String) (domains : List String)
    (hostnamesForDomain : String → List String)
    (check : String → List String → DomainResult) :
    List (String × String × DomainResult) :=
  domains.filterMap fun domain =>
    let verdict := check domain (hostnamesForDomain domain)
    if verdict.Status ≠ 0 then some (name, domain, verdict) else none

/-- C5: on a tick, the check function is invoked for every domain fetched
from the store, and the failure reporter is invoked with (validator name,
domain, verdict) if and only if that domain's verdict has a status other
than success; success verdicts are never reported. -/
theorem validator_tick_reports_iff (name : String) (domains : List String)
    (hostnamesForDomain : String → List String)
    (check : String → List String → DomainResult) (domain : String) :
    (domain ∈ domains →
      (domain, check domain (hostnamesForDomain domain)) ∈
        validatorTickChecks domains hostnamesForDomain check) ∧
    ((name, domain, check domain (hostnamesForDomain domain)) ∈
        validatorTickReports name domains hostnamesForDomain check ↔
      domain ∈ domains ∧
        (check domain (hostnamesForDomain domain)).Status ≠ 0) := by
  constructor
  · intro hmem
    exact List.mem_map.mpr ⟨domain, hmem, rfl⟩
  · constructor
    · intro hmem
      obtain ⟨d, hd, heq⟩ := List.mem_filterMap.mp hmem
      by_cases hst : (check d (hostnamesForDomain d)).Status ≠ 0
      · rw [if_pos hst] at heq
        injection heq with heq
        injection heq with _ heq
        injection heq with heqd heqv
        subst heqd
        exact ⟨hd, hst⟩
      · simp [hst] at heq
    · rintro ⟨hd, hst⟩
      refine List.mem_filterMap.mpr ⟨domain, hd, ?_⟩
      rw [if_pos hst]

/-- Witness for C5, mirroring the validator test: domains "fail" and
"error" get failing verdicts and are reported; "normal" succeeds and is
not reported. -/
theorem validator_tick_reports_iff_witness :
    ("mock", "fail",
        DomainResult.mk "fail" [] none 5) ∈
      validatorTickReports "mock" ["fail", "error", "normal"]
        (fun _ => ["hostname"])
        (fun domain _ =>
          if domain = "fail" ∨ domain = "error" then ⟨domain, [], none, 5⟩
          else ⟨domain, [], none, 0⟩) ∧
    ¬ (("mock", "normal",
        DomainResult.mk "normal" [] none 0) ∈
      validatorTickReports "mock" ["fail", "error", "normal"]
        (fun _ => ["hostname"])
        (fun domain _ =>
          if domain = "fail" ∨ domain = "error" then ⟨domain, [], none, 5⟩
          else ⟨domain, [], none, 0⟩)) := by
  constructor
  · exact ((validator_tick_reports_iff "mock" ["fail", "error", "normal"]
      (fun _ => ["hostname"])
      (fun domain _ =>
        if domain = "fail" ∨ domain = "error" then ⟨domain, [], none, 5⟩
        else ⟨domain, [], none, 0⟩) "fail").2.mpr
      ⟨by decide, by decide⟩)
  · intro hmem
    have := ((validator_tick_reports_iff "mock" ["fail", "error", "normal"]
      (fun _ => ["hostname"])
      (fun domain _ =>
        if domain = "fail" ∨ domain = "error" then ⟨domain, [], none, 5⟩
        else ⟨domain, [], none, 0⟩) "normal").2.mp
      (by
        have hv : (fun domain (_ : List String) =>
            if domain = "fail" ∨ domain = "error" then
              (⟨domain, [], none, 5⟩ : DomainResult)
            else ⟨domain, [], none, 0⟩) "normal" ["hostname"] =
            ⟨"normal", [], none, 0⟩ := by decide
        rw [← hv] at hmem
        exact hmem))
    exact this.2 (by decide)

/-! ## The CheckCSV fan-out/fan-in pipeline (`checker/totals.go`)

`CheckCSV` feeds a work channel from the producer, lets `poolSize` worker
goroutines each pull domains and push `c.CheckDomain(domain, nil)` results,
closes the results channel once every worker has signalled `done`, and has
the collector loop call `resultHandler.HandleDomain` per received result.
The embedding is a small-step transition system over the pipeline's
observable state, abstracting goroutine scheduling as nondeterministic
interleaving: a `take` moves a domain from the work channel to a worker, a
`finish` moves a worker's computed `CheckDomain` result to the results
channel, a `collect` delivers one buffered result to the handler. A
terminal state (work channel drained, no worker mid-check, results channel
drained — the state in which the channel closes and the collector's range
loop ends) is clean termination. -/

/-- The observable state of the `CheckCSV` pipeline: the unread work
channel contents, the multiset of domains currently being checked by
workers, the undelivered results channel contents, and the multiset of
results already delivered to `HandleDomain`. -/
structure PipelineState where
  work : List String
  inFlight : Multiset String
  results : Multiset DomainResult
  handled : Multiset DomainResult

/-- One scheduling step of the `CheckCSV` pipeline, parameterized by
`checkDomain`, the `c.CheckDomain(·, nil)` call each worker makes. -/
inductive PipelineStep (checkDomain : String → DomainResult) :
    PipelineState → PipelineState → Prop where
  | take (domain : String) (work : List String) (inFlight : Multiset String)
      (results handled : Multiset DomainResult) :
      PipelineStep checkDomain
        ⟨domain :: work, inFlight, results, handled⟩
        ⟨work, domain ::ₘ inFlight, results, handled⟩
  | finish (domain : String) (work : List String)
      (inFlight : Multiset String) (results handled : Multiset DomainResult)
      (hmem : domain ∈ inFlight) :
      PipelineStep checkDomain
        ⟨work, inFlight, results, handled⟩
        ⟨work, inFlight.erase domain, checkDomain domain ::ₘ results, handled⟩
  | collect (r : DomainResult) (work : List String)
      (inFlight : Multiset String) (results handled : Multiset DomainResult)
      (hmem : r ∈ results) :
      PipelineStep checkDomain
        ⟨work, inFlight, results, handled⟩
        ⟨work, inFlight, results.erase r, r ::ₘ handled⟩

/-- Any interleaving of pipeline steps. -/
def PipelineReaches (checkDomain : String → DomainResult) :
    PipelineState → PipelineState → Prop :=
  Relation.ReflTransGen (PipelineStep checkDomain)

/-- The pipeline's initial state for a batch of input domains: everything
queued as work, nothing checked or delivered. -/
def pipelineInit (domains : List String) : PipelineState :=
  ⟨domains, 0, 0, 0⟩

/-- Clean termination of the pipeline: the work channel is drained and
closed, every worker has signalled `done`, and the results channel is
drained and closed, ending the collector's loop. -/
def PipelineDone (s : PipelineState) : Prop :=
  s.work = [] ∧ s.inFlight = 0 ∧ s.results = 0

/-- The conserved tally of a pipeline state: every input domain's eventual
`CheckDomain` result, counted once, whatever stage it is at. -/
def pipelineTally (checkDomain : String → DomainResult)
    (s : PipelineState) : Multiset DomainResult :=
  (s.work.map checkDomain : Multiset DomainResult) +
    s.inFlight.map checkDomain + s.results + s.handled

/-- Each pipeline step conserves the tally: channels deliver each item
exactly once, dropping none and duplicating none. -/
theorem pipelineStep_tally (checkDomain : String → DomainResult)
    {s t : PipelineState} (hstep : PipelineStep checkDomain s t) :
    pipelineTally checkDomain t = pipelineTally checkDomain s := by
  cases hstep with
  | take domain work inFlight results handled =>
    unfold pipelineTally
    simp only [List.map_cons, Multiset.map_cons, ← Multiset.cons_coe,
      ← Multiset.singleton_add, Multiset.map_add, Multiset.map_singleton]
    abel
  | finish domain work inFlight results handled hmem =>
    unfold pipelineTally
    have hcons : checkDomain domain ::ₘ
        (inFlight.erase domain).map checkDomain = inFlight.map checkDomain := by
      rw [← Multiset.map_cons, Multiset.cons_erase hmem]
    conv_rhs => rw [← hcons]
    simp only [← Multiset.singleton_add]
    abel
  | collect r work inFlight results handled hmem =>
    unfold pipelineTally
    have hcons : r ::ₘ results.erase r = results :=
      Multiset.cons_erase hmem
    conv_rhs => rw [← hcons]
    simp only [← Multiset.singleton_add]
    abel

/-- The tally is conserved along any interleaving. -/
theorem pipelineReaches_tally (checkDomain : String → DomainResult)
    {s t : PipelineState}
    (hreach : PipelineReaches checkDomain s t) :
    pipelineTally checkDomain t = pipelineTally checkDomain s := by
  induction hreach with
  | refl => rfl
  | tail _ hstep ih => rw [pipelineStep_tally checkDomain hstep, ih]

/-- C2: for every batch of input domains, every worker-pool interleaving
that reaches clean termination has delivered to `HandleDomain` exactly the
multiset of per-domain `CheckDomain` results — one per input domain, none
dropped, none duplicated — so `HandleDomain` runs exactly N times for N
input domains. -/
theorem checkCSV_exactly_once (checkDomain : String → DomainResult)
    (domains : List String) (s : PipelineState)
    (hreach : PipelineReaches checkDomain (pipelineInit domains) s)
    (hdone : PipelineDone s) :
    s.handled = (domains.map checkDomain : Multiset DomainResult) ∧
      Multiset.card s.handled = domains.length := by
  obtain ⟨hwork, hflight, hres⟩ := hdone
  have htally := pipelineReaches_tally checkDomain hreach
  unfold pipelineTally pipelineInit at htally
  rw [hwork, hflight, hres] at htally
  simp only [List.map_nil, Multiset.coe_nil, Multiset.map_zero,
    zero_add, add_zero] at htally
  refine ⟨htally, ?_⟩
  rw [htally, Multiset.coe_card, List.length_map]

/-- Witness for C2: a one-domain batch, stepped through take, finish and
collect, terminates cleanly having handled exactly that domain's result
once. -/
theorem checkCSV_exactly_once_witness :
    (PipelineState.mk [] ((("a" : String) ::ₘ 0).erase "a")
        (((fun _ => DomainResult.mk "a" [] none 0) "a" ::ₘ 0).erase
          (DomainResult.mk "a" [] none 0))
        (DomainResult.mk "a" [] none 0 ::ₘ 0)).handled =
      ((["a"].map fun _ => DomainResult.mk "a" [] none 0) :
        Multiset DomainResult) := by
  refine (checkCSV_exactly_once (fun _ => DomainResult.mk "a" [] none 0)
    ["a"] _ ?_ ?_).1
  · have h1 : PipelineStep (fun _ => DomainResult.mk "a" [] none 0)
        (pipelineInit ["a"]) ⟨[], "a" ::ₘ 0, 0, 0⟩ :=
      PipelineStep.take "a" [] 0 0 0
    have h2 : PipelineStep (fun _ => DomainResult.mk "a" [] none 0)
        ⟨[], "a" ::ₘ 0, 0, 0⟩
        ⟨[], (("a" : String) ::ₘ 0).erase "a",
          (fun _ => DomainResult.mk "a" [] none 0) "a" ::ₘ 0, 0⟩ :=
      PipelineStep.finish "a" [] ("a" ::ₘ 0) 0 0 (by simp)
    have h3 : PipelineStep (fun _ => DomainResult.mk "a" [] none 0)
        ⟨[], (("a" : String) ::ₘ 0).erase "a",
          (fun _ => DomainResult.mk "a" [] none 0) "a" ::ₘ 0, 0⟩
        ⟨[], (("a" : String) ::ₘ 0).erase "a",
          (((fun _ => DomainResult.mk "a" [] none 0) "a" ::ₘ 0).erase
            (DomainResult.mk "a" [] none 0)),
          DomainResult.mk "a" [] none 0 ::ₘ 0⟩ :=
      PipelineStep.collect (DomainResult.mk "a" [] none 0) []
        ((("a" : String) ::ₘ 0).erase "a")
        ((fun _ => DomainResult.mk "a" [] none 0) "a" ::ₘ 0) 0 (by simp)
    exact Relation.ReflTransGen.head h1 (Relation.ReflTransGen.head h2
      (Relation.ReflTransGen.single h3))
  · refine ⟨rfl, ?_, ?_⟩
    · show (("a" : String) ::ₘ 0).erase "a" = 0
      simp
    · show (((fun _ => DomainResult.mk "a" [] none 0) "a" ::ₘ 0).erase
        (DomainResult.mk "a" [] none 0)) = 0
      simp

end StarttlsBackend
